import Mathlib

/-!
Verification development for the mc-replay-go repository.

This file shallowly embeds the repository's core subsystems in Lean:

* the VarInt codec (`encodeVarInt` from `varint.go`, `readVarInt` from
  `examples/proxyrec/main.go`),
* the container writer (`mcpr.Writer`: `NewWriter`, `WritePacket`,
  `SetSelfID`, `AddPlayer`, `CreateEntry`, `Close`),
* the thread-safe recorder facade (`recorder.Recorder`),
* the frame recorder (`parseAndRecord` from `examples/proxyrec/main.go`),
* the forwarding/tee harness (`forwardWithTee` plus the `io.Pipe` mirror),
* the validator (`ValidateFile`).

Go byte slices become `List Nat` (each element a byte value), machine
integers become `Nat`/`Int` with explicit wrap-around where the Go code
truncates, and fallible operations return explicit error options.  I/O
failure of the underlying sink is modelled by an explicit environment
(`List Bool`) consumed one entry per fallible archive operation: `true`
(the default once the list is exhausted) means the operation succeeds.
-/

namespace MCReplay

/-! ## VarInt codec -/

/-- `binary.BigEndian.PutUint32`: the four bytes of `n` (an unsigned 32-bit
value) in big-endian order.  Go's `byte(v >> k)` truncates to the low
8 bits, which is the `% 256` below. -/
def be32 (n : Nat) : List Nat :=
  [n / 2 ^ 24 % 256, n / 2 ^ 16 % 256, n / 2 ^ 8 % 256, n % 256]

/-- The loop body of `encodeVarInt` (varint.go).  The Go loop runs until
`uv` (a `uint32`) becomes zero after shifting by 7; since `uv < 2^32` it
runs at most 5 times, which the structural `fuel` parameter realizes
(`encodeVarInt` below always supplies fuel 5). -/
def encodeVarIntAux : Nat → Nat → List Nat
  | 0, _ => []
  | fuel + 1, uv =>
    let b := uv % 128
    if uv / 128 = 0 then [b]
    else (b + 128) :: encodeVarIntAux fuel (uv / 128)

/-- `encodeVarInt` (varint.go): encodes a 32-bit integer as a
Minecraft-style VarInt. `uint32(v)` is the unsigned bit pattern of `v`,
i.e. `v mod 2^32`. -/
def encodeVarInt (v : Int) : List Nat :=
  encodeVarIntAux 5 ((v % 2 ^ 32).toNat)

/-- The loop of `readVarInt` (examples/proxyrec/main.go), reading from a
byte list instead of an `io.ByteReader` and additionally returning how
many bytes were consumed.  `i` is the loop counter, `shift` the current
shift, `num` the accumulator; `b & 0x7F` is `b % 128` and
`b & 0x80 == 0` is `b % 256 < 128` (Go bytes are `uint8`).  `none`
covers both a missing byte (read error) and the "varint too long"
overflow after 5 continuation bytes. -/
def readVarIntAux : List Nat → Nat → Nat → Nat → Option (Nat × Nat)
  | [], _, _, _ => none
  | b :: rest, i, shift, num =>
    if i < 5 then
      let num2 := num ||| ((b % 128) <<< shift)
      if b % 256 < 128 then some (num2, i + 1)
      else readVarIntAux rest (i + 1) (shift + 7) num2
    else none

/-- `readVarInt` (examples/proxyrec/main.go): reads one VarInt from the
front of `l`, returning the (nonnegative) accumulated value and the
number of bytes consumed. -/
def readVarInt (l : List Nat) : Option (Nat × Nat) :=
  readVarIntAux l 0 0 0

/-- Go's `int32(x)` conversion applied to an unsigned value `n < 2^32`:
reinterpret the low 32 bits as a two's-complement signed integer. -/
def toInt32 (n : Nat) : Int :=
  if n < 2 ^ 31 then (n : Int) else (n : Int) - 2 ^ 32

/-- `singleVarInt` (examples/proxyrec/main.go): the value, if the byte
list decodes to exactly one VarInt with nothing left over. -/
def singleVarInt (b : List Nat) : Option Nat :=
  match readVarInt b with
  | none => none
  | some (v, n) => if n = b.length then some v else none

/-! ## Container writer (mcpr.Writer, writer.go / meta.go)

The underlying `archive/zip` writer is modelled by `ZipW`: entries are
written strictly sequentially, `Create` closes the current entry and
opens a new one, and writing to an entry that is no longer current fails
(Go returns `zip.ErrWriteAfterClose` in that situation, including for
the io.Writer handles the Go code keeps around, such as `Writer.recw`).
Entry contents are lists of `Chunk`s: raw bytes for the packet stream,
and abstract tokens for the `encoding/json` output of `json.Marshal`
(which cannot fail on these struct types) and for the CRC-32 entry,
whose decimal text is determined by the byte stream it hashes.
A ghost `ops` field logs each archive-level operation performed, so that
theorems can speak about which steps an operation does or does not run.
-/

/-- `CurrentFileFormatVersion` (meta.go). -/
def CurrentFileFormatVersion : Nat := 14

/-- `mcpr.Meta` (meta.go).  Field defaults are Go zero values; `Players`
is an `Option` because Go distinguishes a nil slice from an empty one in
`AddPlayer`. -/
structure Meta where
  singleplayer : Bool := false
  serverName : String := ""
  customServerName : String := ""
  duration : Nat := 0
  date : Nat := 0
  mcversion : String := ""
  fileFormat : String := ""
  fileFormatVersion : Nat := 0
  protocol : Nat := 0
  generator : String := ""
  selfId : Int := 0
  players : Option (List String) := none
deriving DecidableEq

/-- One `Write` call's worth of content inside a zip entry. -/
inductive Chunk
  | bytes (bs : List Nat)
  | metaJson (m : Meta)
  | modsJson
  | crcOf (bs : List Nat)
deriving DecidableEq

/-- Ghost log of archive-level operations. -/
inductive ZOp
  | create (name : String)
  | write (name : String)
  | closeArchive
  | validate
deriving DecidableEq

/-- A zip entry: name plus the chunks written to it. -/
structure ZEntry where
  name : String
  data : List Chunk
deriving DecidableEq

/-- The state of an `archive/zip` writer. -/
structure ZipW where
  done : List ZEntry
  cur : Option ZEntry
  closedZ : Bool
  ops : List ZOp
deriving DecidableEq

/-- Errors surfaced by writer operations. -/
inductive WErr
  | writerClosed
  | createFail (name : String)
  | writeFail (name : String)
  | entryClosed (name : String)
  | zipCloseFail
deriving DecidableEq

/-- Take the next I/O outcome from the environment (`true` = succeed;
an exhausted environment always succeeds). -/
def popEnv (env : List Bool) : Bool × List Bool :=
  (env.headD true, env.tail)

/-- The all-successes environment. -/
def trueEnv : List Bool := []

/-- `zip.Writer.Create`: closes the entry currently being written (this
happens before any fallible I/O) and opens a new one. -/
def zipCreate (z : ZipW) (name : String) (env : List Bool) :
    ZipW × List Bool × Option WErr :=
  let z1 : ZipW :=
    { done := z.done ++ z.cur.toList, cur := none, closedZ := z.closedZ,
      ops := z.ops ++ [ZOp.create name] }
  let (ok, env') := popEnv env
  if ok then ({ z1 with cur := some ⟨name, []⟩ }, env', none)
  else (z1, env', some (WErr.createFail name))

/-- A `Write` on the io.Writer handle for entry `name`: appends to it if
it is still the current entry, otherwise fails (write after close). -/
def zipWrite (z : ZipW) (name : String) (c : Chunk) (env : List Bool) :
    ZipW × List Bool × Option WErr :=
  let z1 := { z with ops := z.ops ++ [ZOp.write name] }
  match z.cur with
  | some e =>
    if e.name = name then
      let (ok, env') := popEnv env
      if ok then ({ z1 with cur := some ⟨e.name, e.data ++ [c]⟩ }, env', none)
      else (z1, env', some (WErr.writeFail name))
    else (z1, env, some (WErr.entryClosed name))
  | none => (z1, env, some (WErr.entryClosed name))

/-- `zip.Writer.Close`: flushes the last entry and the central
directory. -/
def zipClose (z : ZipW) (env : List Bool) : ZipW × List Bool × Option WErr :=
  let z1 := { z with ops := z.ops ++ [ZOp.closeArchive] }
  let (ok, env') := popEnv env
  if ok then
    ({ done := z1.done ++ z1.cur.toList, cur := none, closedZ := true,
       ops := z1.ops }, env', none)
  else (z1, env', some WErr.zipCloseFail)

/-- `mcpr.Writer` (writer.go).  `crcBytes` is the byte stream fed to the
running `crc32.NewIEEE()` hash by the `io.MultiWriter(rec, crc)`; the
CRC-32 value written at close is a function of exactly these bytes. -/
structure Writer where
  zw : ZipW
  meta : Meta
  duration : Nat
  closed : Bool
  crcBytes : List Nat
deriving DecidableEq

/-- The metadata normalization in `NewWriter`. -/
def metaDefaultsNew (m : Meta) (now : Nat) : Meta :=
  let m1 := if m.fileFormat = "" then { m with fileFormat := "MCPR" } else m
  let m2 := if m1.fileFormatVersion = 0 then
    { m1 with fileFormatVersion := CurrentFileFormatVersion } else m1
  if m2.date = 0 then { m2 with date := now } else m2

/-- `mcpr.NewWriter` (writer.go): creates the `recording.tmcpr` entry and
normalizes default metadata.  `now` stands for `time.Now().UnixMilli()`. -/
def newWriter (meta : Meta) (now : Nat) (env : List Bool) :
    Option Writer × List Bool :=
  let (z, env', e) := zipCreate ⟨[], none, false, []⟩ "recording.tmcpr" env
  match e with
  | some _ => (none, env')
  | none =>
    (some { zw := z, meta := metaDefaultsNew meta now, duration := 0,
            closed := false, crcBytes := [] }, env')

/-- One `w.recw.Write(bs)`: the multi-writer feeds the zip entry first
and updates the CRC stream only if that write succeeded. -/
def writeRec (w : Writer) (bs : List Nat) (env : List Bool) :
    Writer × List Bool × Option WErr :=
  let (z, env', e) := zipWrite w.zw "recording.tmcpr" (Chunk.bytes bs) env
  match e with
  | some err => ({ w with zw := z }, env', some err)
  | none => ({ w with zw := z, crcBytes := w.crcBytes ++ bs }, env', none)

/-- `Writer.WritePacket` (writer.go): 8-byte big-endian header
(timestamp, then byte length of varint id + payload, truncated to
`uint32`), then the varint-encoded id, then the payload; tracks the
maximum timestamp seen.  The `w.recw == nil` half of the closed guard
cannot fire for a writer built by `NewWriter` and is not modelled. -/
def writePacket (w : Writer) (ts : Nat) (packetID : Int)
    (payload : List Nat) (env : List Bool) :
    Writer × List Bool × Option WErr :=
  if w.closed then (w, env, some WErr.writerClosed)
  else
    let varid := encodeVarInt packetID
    let hdr := be32 ts ++ be32 (varid.length + payload.length)
    match writeRec w hdr env with
    | (w1, env1, some e) => (w1, env1, some e)
    | (w1, env1, none) =>
      match writeRec w1 varid env1 with
      | (w2, env2, some e) => (w2, env2, some e)
      | (w2, env2, none) =>
        match writeRec w2 payload env2 with
        | (w3, env3, some e) => (w3, env3, some e)
        | (w3, env3, none) =>
          (if ts > w3.duration then { w3 with duration := ts } else w3,
            env3, none)

/-- `Writer.SetSelfID` (writer.go): unconditionally mutates the
metadata — there is no closed check in the source. -/
def setSelfID (w : Writer) (id : Int) : Writer :=
  { w with meta := { w.meta with selfId := id } }

/-- `Writer.AddPlayer` (writer.go): materializes a nil players slice,
then appends unless the UUID is already present.  No closed check. -/
def addPlayer (w : Writer) (uuid : String) : Writer :=
  let ps := match w.meta.players with
    | none => []
    | some l => l
  if uuid ∈ ps then { w with meta := { w.meta with players := some ps } }
  else { w with meta := { w.meta with players := some (ps ++ [uuid]) } }

/-- `Writer.CreateEntry` (writer.go). -/
def createEntry (w : Writer) (name : String) (env : List Bool) :
    Writer × List Bool × Option WErr :=
  if w.closed then (w, env, some WErr.writerClosed)
  else
    let (z, env', e) := zipCreate w.zw name env
    ({ w with zw := z }, env', e)

/-- The metadata normalization at the top of `Writer.Close`. -/
def metaDefaultsClose (m : Meta) (dur : Nat) : Meta :=
  let m1 := { m with duration := dur }
  let m2 := if m1.generator = "" then { m1 with generator := "mc-replay-go" } else m1
  let m3 := if m2.fileFormat = "" then { m2 with fileFormat := "MCPR" } else m2
  if m3.fileFormatVersion = 0 then
    { m3 with fileFormatVersion := CurrentFileFormatVersion } else m3

/-- `Writer.Close` (writer.go): no-op once `closed`; otherwise writes the
`metaData.json`, `mods.json` and `recording.tmcpr.crc32` entries, closes
the archive, and only then sets the `closed` flag.  `json.Marshal`
cannot fail on these values, so its error branches are dead code.  Every
error is returned to the caller with `closed` still false.  The optional
`w.file.Close()` of the `Create` path is outside this model. -/
def closeW (w : Writer) (env : List Bool) : Writer × List Bool × Option WErr :=
  if w.closed then (w, env, none)
  else
    let m := metaDefaultsClose w.meta w.duration
    let w0 := { w with meta := m }
    match zipCreate w0.zw "metaData.json" env with
    | (z, env, some e) => ({ w0 with zw := z }, env, some e)
    | (z, env, none) =>
      match zipWrite z "metaData.json" (Chunk.metaJson m) env with
      | (z, env, some e) => ({ w0 with zw := z }, env, some e)
      | (z, env, none) =>
        match zipCreate z "mods.json" env with
        | (z, env, some e) => ({ w0 with zw := z }, env, some e)
        | (z, env, none) =>
          match zipWrite z "mods.json" Chunk.modsJson env with
          | (z, env, some e) => ({ w0 with zw := z }, env, some e)
          | (z, env, none) =>
            match zipCreate z "recording.tmcpr.crc32" env with
            | (z, env, some e) => ({ w0 with zw := z }, env, some e)
            | (z, env, none) =>
              match zipWrite z "recording.tmcpr.crc32" (Chunk.crcOf w0.crcBytes) env with
              | (z, env, some e) => ({ w0 with zw := z }, env, some e)
              | (z, env, none) =>
                match zipClose z env with
                | (z, env, some e) => ({ w0 with zw := z }, env, some e)
                | (z, env, none) => ({ w0 with zw := z, closed := true }, env, none)

/-! ## Recorder facade (recorder/recorder.go)

The `sync.Mutex` serializes the calls; the sequential model below is the
behavior of each serialized call. -/

/-- `recorder.Recorder`. -/
structure Recorder where
  w : Writer
  closed : Bool
deriving DecidableEq

/-- `Recorder.RecordAt`: silent no-op once closed. -/
def recRecordAt (r : Recorder) (ts : Nat) (id : Int) (payload : List Nat)
    (env : List Bool) : Recorder × List Bool × Option WErr :=
  if r.closed then (r, env, none)
  else
    let (w', env', e) := writePacket r.w ts id payload env
    ({ r with w := w' }, env', e)

/-- `Recorder.Close`: marks itself closed, then delegates to
`Writer.Close`.  It performs no validation of the written file. -/
def recClose (r : Recorder) (env : List Bool) :
    Recorder × List Bool × Option WErr :=
  if r.closed then (r, env, none)
  else
    let (w', env', e) := closeW r.w env
    ({ w := w', closed := true }, env', e)

/-- `Recorder.SetSelfID`: no-op after close. -/
def recSetSelfID (r : Recorder) (id : Int) : Recorder :=
  if r.closed then r else { r with w := setSelfID r.w id }

/-- `Recorder.AddPlayer`: no-op after close. -/
def recAddPlayer (r : Recorder) (uuid : String) : Recorder :=
  if r.closed then r else { r with w := addPlayer r.w uuid }

/-! ## Validator (validate.go) -/

/-- Structural validation failures of `ValidateFile` (validate.go). -/
inductive VErr
  | missingRecording
  | missingMetadata
  | metaParseFail
deriving DecidableEq

/-- Entry lookup in a finished archive. -/
def findEntry (es : List ZEntry) (name : String) : Option ZEntry :=
  es.find? (fun e => e.name == name)

/-- The `metaData.json` entry parses iff it holds exactly the serialized
metadata object. -/
def entryMeta (e : ZEntry) : Option Meta :=
  match e.data with
  | [Chunk.metaJson m] => some m
  | _ => none

/-- The entry/metadata checks of `ValidateFile` (validate.go), applied to
the entries of an archive that opened correctly: structural defects are
errors, everything else only produces warnings. -/
def validateArchive (es : List ZEntry) : Except VErr (List String) :=
  match findEntry es "recording.tmcpr" with
  | none => Except.error VErr.missingRecording
  | some recEntry =>
    let w1 := if recEntry.data = [] then ["recording.tmcpr is empty"] else []
    match findEntry es "metaData.json" with
    | none => Except.error VErr.missingMetadata
    | some metaEntry =>
      match entryMeta metaEntry with
      | none => Except.error VErr.metaParseFail
      | some m =>
        Except.ok (w1
          ++ (if m.fileFormat ≠ "MCPR" then ["unexpected file format"] else [])
          ++ (if m.fileFormatVersion < 1 ∨ 15 < m.fileFormatVersion then
                ["unusual file format version"] else [])
          ++ (if m.protocol = 0 then ["protocol version is 0"] else [])
          ++ (if m.duration = 0 then ["replay duration is 0 ms"] else [])
          ++ (if (findEntry es "mods.json").isNone then
                ["missing optional file mods.json"] else [])
          ++ (if (findEntry es "recording.tmcpr.crc32").isNone then
                ["missing cache file recording.tmcpr.crc32"] else []))

/-! ## Frame recorder (parseAndRecord, examples/proxyrec/main.go)

External collaborators are passed in as functions: `inflate` is
`zlib.NewReader` + `io.Copy` on the compressed block (`none` covers both
a failed header read and a failed copy), and `clock` gives the value of
`time.Since(start).Milliseconds()` at the k-th recorded packet.  The Go
loop runs until a parse error or EOF; each successful iteration consumes
at least two input bytes, so the structural `fuel` supplied by
`parseAndRecord` (`input.length + 1`) can never run out before the
stream does. -/

/-- `maxFrame`: the 8 MiB frame-length safety cap (`8 << 20`). -/
def maxFrame : Nat := 8 <<< 20

/-- Parse errors of the recording path.  `frameErr` collapses the
distinct error values that all halt the loop identically (stream
EOF / short read / varint overflow / invalid packet-id varint);
`invalidFrameLen` is the `"invalid frame length %d"` rejection;
`writeErr` propagates a `WritePacket` failure.  The decoded
frame length is nonnegative (a VarInt accumulates nonnegative
groups into an `int64`), so Go's `frameLen <= 0` test is the
`frameLen = 0` test on `Nat`. -/
inductive PErr
  | frameErr
  | invalidFrameLen (l : Nat)
  | writeErr (e : WErr)
deriving DecidableEq

/-- The recording path's state: the writer plus `compressionEnabled`. -/
structure PState where
  w : Writer
  compressionEnabled : Bool
deriving DecidableEq

/-- The loop of `parseAndRecord`: one iteration reads a VarInt frame
length, rejects `<= 0` / oversized lengths, reads the frame, optionally
undoes compression (falling back to the raw frame bytes if the size
field is unreadable or decompression fails), splits packet id from
payload, runs the SetCompression heuristic, and records the packet. -/
def parseLoop (inflate : List Nat → Option (List Nat)) (clock : Nat → Nat)
    (assumeNoCompress guessCompress : Bool) :
    Nat → List Nat → PState → List Bool → Nat → PState × Option PErr
  | 0, _, st, _, _ => (st, none)
  | fuel + 1, input, st, env, k =>
    match readVarInt input with
    | none => (st, some PErr.frameErr)
    | some (frameLen, n) =>
      if frameLen = 0 ∨ maxFrame < frameLen then
        (st, some (PErr.invalidFrameLen frameLen))
      else
        let rest := input.drop n
        if rest.length < frameLen then (st, some PErr.frameErr)
        else
          let frame := rest.take frameLen
          let rest2 := rest.drop frameLen
          let data :=
            if !assumeNoCompress && st.compressionEnabled then
              match readVarInt frame with
              | some (uncompressedSize, m) =>
                if 0 < uncompressedSize then
                  match inflate (frame.drop m) with
                  | some out => out
                  | none => frame
                else frame.drop m
              | none => frame
            else frame
          match readVarInt data with
          | none => (st, some PErr.frameErr)
          | some (pid64, q) =>
            let pid := toInt32 (pid64 % 2 ^ 32)
            let payload := data.drop q
            let comp2 :=
              if guessCompress && !st.compressionEnabled && !assumeNoCompress
                  && (singleVarInt payload).isSome then true
              else st.compressionEnabled
            let ts := clock k
            match writePacket st.w ts pid payload env with
            | (w1, _, some e) => (⟨w1, comp2⟩, some (PErr.writeErr e))
            | (w1, env1, none) =>
              parseLoop inflate clock assumeNoCompress guessCompress
                fuel rest2 ⟨w1, comp2⟩ env1 (k + 1)

/-- `parseAndRecord` (examples/proxyrec/main.go): compression starts
enabled iff a nonnegative threshold was forced. -/
def parseAndRecord (inflate : List Nat → Option (List Nat))
    (clock : Nat → Nat) (w : Writer)
    (assumeNoCompress guessCompress : Bool) (forceThreshold : Int)
    (input : List Nat) (env : List Bool) : PState × Option PErr :=
  parseLoop inflate clock assumeNoCompress guessCompress
    (input.length + 1) input ⟨w, decide (0 ≤ forceThreshold)⟩ env 0

/-! ## Recording-entry byte layout -/

/-- A recorded message. -/
structure Msg where
  ts : Nat
  id : Int
  payload : List Nat
deriving DecidableEq

/-- The bytes `WritePacket` appends to `recording.tmcpr` for one
message. -/
def packetBytes (m : Msg) : List Nat :=
  be32 m.ts ++ be32 ((encodeVarInt m.id).length + m.payload.length)
    ++ encodeVarInt m.id ++ m.payload

/-- Reading one 4-byte big-endian value.  Modelled from the spec: the
repository has no reader for the `recording` entry, so the decode
direction follows the documented byte layout ("[timestamp: 4 bytes
big-endian][frameLength: 4 bytes big-endian][varintEncodedId]
[payload]"). -/
def readBE32 : List Nat → Option (Nat × List Nat)
  | a :: b :: c :: d :: rest => some (a * 2 ^ 24 + b * 2 ^ 16 + c * 2 ^ 8 + d, rest)
  | _ => none

/-- Modelled from the spec: decoding the `recording` entry, message by
message, per the documented layout; the id varint is read with the
repository's own `readVarInt`.  Each message occupies at least nine
bytes, so fuel `input.length` (supplied by `decodeRecording`) suffices. -/
def decodeAux : Nat → List Nat → Option (List Msg)
  | _, [] => some []
  | 0, _ :: _ => none
  | fuel + 1, input =>
    match readBE32 input with
    | none => none
    | some (ts, r1) =>
      match readBE32 r1 with
      | none => none
      | some (len, r2) =>
        if r2.length < len then none
        else
          let body := r2.take len
          let rest := r2.drop len
          match readVarInt body with
          | none => none
          | some (pid64, q) =>
            match decodeAux fuel rest with
            | none => none
            | some ms => some (⟨ts, toInt32 (pid64 % 2 ^ 32), body.drop q⟩ :: ms)

/-- Modelled from the spec: decode a whole `recording` entry. -/
def decodeRecording (input : List Nat) : Option (List Msg) :=
  decodeAux input.length input

/-- Writing a message list in order, stopping at the first error, the
way cmd/mcpr-create's loop does (all-success environment). -/
def writeAllE : Writer → List Msg → Writer × Option WErr
  | w, [] => (w, none)
  | w, m :: ms =>
    match writePacket w m.ts m.id m.payload trueEnv with
    | (w', _, none) => writeAllE w' ms
    | (w', _, some e) => (w', some e)

/-- The running maximum `WritePacket` keeps in `w.duration`, starting
from a fresh writer. -/
def maxTs (msgs : List Msg) : Nat :=
  msgs.foldl (fun d m => if m.ts > d then m.ts else d) 0

/-- In-range messages: the timestamp is a `uint32`, the id an `int32`,
and the id+payload length fits the 4-byte frame-length field. -/
def MsgWf (m : Msg) : Prop :=
  m.ts < 2 ^ 32 ∧ -2 ^ 31 ≤ m.id ∧ m.id < 2 ^ 31 ∧
    (encodeVarInt m.id).length + m.payload.length < 2 ^ 32

instance (m : Msg) : Decidable (MsgWf m) := by
  unfold MsgWf; infer_instance

/-- The raw bytes of one entry (byte chunks flattened; the recording
entry only ever receives byte chunks). -/
def entryBytes (e : ZEntry) : List Nat :=
  (e.data.map (fun c => match c with
    | Chunk.bytes bs => bs
    | _ => [])).flatten

/-- Invariant of a writer between `NewWriter` and the first entry
creation after the packet stream: not yet finalized, the recording entry
is the current one, and the CRC stream mirrors its bytes (the
`io.MultiWriter` keeps them in lockstep). -/
def RecOpen (w : Writer) : Prop :=
  w.closed = false ∧
    ∃ cs : List Chunk, w.zw.cur = some ⟨"recording.tmcpr", cs⟩ ∧
      entryBytes ⟨"recording.tmcpr", cs⟩ = w.crcBytes

/-! ## Forwarding/tee harness (forwardWithTee + io.Pipe, examples/proxyrec/main.go)

`forwardWithTee` forwards 32 KiB chunks from the upstream connection to
the client and then writes the same chunk into the `io.Pipe` feeding the
parser.  `io.Pipe` is an unbuffered synchronous rendezvous: a `Write`
returns only once a `Read` has consumed the data, or immediately with an
error once the pipe is closed.  The parser goroutine
(`parseAndRecord(pr, ...)`) may return at any time (parse error or EOF)
and the source never closes `pr` when it does.  The small-step system
below has one transition per blocking point of that code. -/

/-- Where the forwarding loop is: about to read/forward the next chunk,
or blocked inside `tee.Write(chunk)`. -/
inductive FwdPhase
  | ready
  | teeing (chunk : List Nat)
deriving DecidableEq

/-- Joint state of the forwarding loop, the pipe and the parser
goroutine. -/
structure TeeSys where
  pending : List (List Nat)
  dstBytes : List Nat
  phase : FwdPhase
  parserAlive : Bool
  pipeClosed : Bool
  parserBytes : List Nat
deriving DecidableEq

/-- The transitions of the forward/tee/parser system. -/
inductive TeeStep : TeeSys → TeeSys → Prop
  /-- `src.Read` a chunk and `dst.Write` it, then enter `tee.Write`. -/
  | forward (s : TeeSys) (c : List Nat) (rest : List (List Nat)) :
      s.phase = FwdPhase.ready → s.pending = c :: rest →
      TeeStep s { s with pending := rest, dstBytes := s.dstBytes ++ c,
                         phase := FwdPhase.teeing c }
  /-- The pipe rendezvous: the parser reads the mirrored chunk, which is
  the only way `tee.Write` on an open pipe returns. -/
  | teeDeliver (s : TeeSys) (c : List Nat) :
      s.phase = FwdPhase.teeing c → s.parserAlive = true →
      s.pipeClosed = false →
      TeeStep s { s with phase := FwdPhase.ready,
                         parserBytes := s.parserBytes ++ c }
  /-- `tee.Write` on a closed pipe fails immediately; `forwardWithTee`
  ignores the error and keeps forwarding. -/
  | teeClosed (s : TeeSys) (c : List Nat) :
      s.phase = FwdPhase.teeing c → s.pipeClosed = true →
      TeeStep s { s with phase := FwdPhase.ready }
  /-- The parser goroutine returns (parse error or EOF). It does not
  close its end of the pipe. -/
  | parserStops (s : TeeSys) :
      s.parserAlive = true →
      TeeStep s { s with parserAlive := false }

/-- A concrete post-parser-death state: the parser has returned after an
invalid frame, the pipe is still open, the forwarder sits inside
`tee.Write` of the previous chunk, and the next chunk from the server is
waiting. -/
def stuckTee : TeeSys :=
  { pending := [[7]], dstBytes := [5], phase := FwdPhase.teeing [6],
    parserAlive := false, pipeClosed := false, parserBytes := [] }

/-! ## Concrete instances used to witness the theorems -/

/-- `zlib` oracle that always fails (also used where compression is off
and the oracle is never consulted). -/
def inflNone : List Nat → Option (List Nat) := fun _ => none

/-- A clock stuck at 0 ms. -/
def clk0 : Nat → Nat := fun _ => 0

/-- The writer produced by `NewWriter` with zero-value metadata at
wall-clock time 1, all I/O succeeding (see `newWriter_example`). -/
def exampleWriter : Writer :=
  { zw := { done := [], cur := some ⟨"recording.tmcpr", []⟩, closedZ := false,
            ops := [ZOp.create "recording.tmcpr"] },
    meta := metaDefaultsNew {} 1, duration := 0, closed := false,
    crcBytes := [] }

/-- A writer on which finalize has completed successfully. -/
def closedExampleWriter : Writer := (closeW exampleWriter trueEnv).1

/-- A recorder facade that has been closed. -/
def closedExampleRecorder : Recorder := ⟨closedExampleWriter, true⟩

/-- The writer state after the first `Close` attempt failed at its very
first step (creating `metaData.json`). -/
def failedCloseWriter : Writer := (closeW exampleWriter [false]).1

/-- The two messages of the spec's example scenario: ts=0, id=0x26,
payload `0A FF EE`, then ts=1500, id=0x3A, payload `DE AD BE EF`. -/
def exampleMsgs : List Msg :=
  [⟨0, 0x26, [0x0A, 0xFF, 0xEE]⟩, ⟨1500, 0x3A, [0xDE, 0xAD, 0xBE, 0xEF]⟩]

/-- The writer after recording the C8 witness frame's fallback message. -/
def c8Writer : Writer :=
  (writePacket exampleWriter 0 (toInt32 (1 % 2 ^ 32)) [9, 9] trueEnv).1

end MCReplay

namespace MCReplay

/-! ## VarInt codec lemmas -/

/-- Bitwise-or of a value with a block shifted above all of its bits is
plain addition. -/
theorem lor_shiftLeft_eq_add {num : Nat} (x n : Nat) (h : num < 2 ^ n) :
    num ||| (x <<< n) = num + x * 2 ^ n := by
  rw [Nat.shiftLeft_eq, Nat.lor_comm, Nat.mul_comm x (2 ^ n),
    ← Nat.mul_add_lt_is_or h, Nat.add_comm]

theorem encodeVarIntAux_length {fuel : Nat} :
    ∀ {uv : Nat}, 0 < fuel → uv < 2 ^ (7 * fuel) →
      1 ≤ (encodeVarIntAux fuel uv).length ∧
        (encodeVarIntAux fuel uv).length ≤ fuel := by
  induction fuel with
  | zero => intro uv h; omega
  | succ f ih =>
    intro uv _ hu
    rw [encodeVarIntAux]
    by_cases h0 : uv / 128 = 0
    · simp [h0]
    · have hf : 0 < f := by
        rcases Nat.eq_zero_or_pos f with hf0 | hf0
        · subst hf0
          have : uv < 128 := by
            have : 2 ^ (7 * 1) = 128 := by norm_num
            omega
          omega
        · exact hf0
      have hdiv : uv / 128 < 2 ^ (7 * f) := by
        have h128 : (128 : Nat) = 2 ^ 7 := by norm_num
        have : uv < 2 ^ (7 * f) * 128 := by
          have : 2 ^ (7 * (f + 1)) = 2 ^ (7 * f) * 2 ^ 7 := by
            rw [← pow_add]; ring_nf
          omega
        rw [Nat.div_lt_iff_lt_mul (by norm_num)]
        omega
      have := ih hf hdiv
      simp only [h0, if_false]
      simp only [List.length_cons]
      omega

theorem readVarIntAux_encode {fuel : Nat} :
    ∀ {uv i num : Nat} (rest : List Nat), 0 < fuel →
      uv < 2 ^ (7 * fuel) → i + fuel ≤ 5 → num < 2 ^ (7 * i) →
      readVarIntAux (encodeVarIntAux fuel uv ++ rest) i (7 * i) num =
        some (num + uv * 2 ^ (7 * i), i + (encodeVarIntAux fuel uv).length) := by
  induction fuel with
  | zero => intro uv i num rest h; omega
  | succ f ih =>
    intro uv i num rest _ hu hi hnum
    rw [encodeVarIntAux]
    by_cases h0 : uv / 128 = 0
    · have huv : uv < 128 := by omega
      simp only [h0, if_true, eq_self_iff_true]
      rw [List.cons_append]
      rw [readVarIntAux]
      have hi5 : i < 5 := by omega
      have hb : uv % 128 = uv := Nat.mod_eq_of_lt huv
      simp only [hi5, if_true, hb]
      have hb2 : uv % 256 < 128 := by
        rw [Nat.mod_eq_of_lt (by omega)]; exact huv
      simp only [hb2, if_true]
      rw [lor_shiftLeft_eq_add uv (7 * i) hnum]
      simp
    · have hf : 0 < f := by
        rcases Nat.eq_zero_or_pos f with hf0 | hf0
        · subst hf0
          have : uv < 128 := by
            have : 2 ^ (7 * 1) = 128 := by norm_num
            omega
          omega
        · exact hf0
      have hdiv : uv / 128 < 2 ^ (7 * f) := by
        have : 2 ^ (7 * (f + 1)) = 2 ^ (7 * f) * 2 ^ 7 := by
          rw [← pow_add]; ring_nf
        rw [Nat.div_lt_iff_lt_mul (by norm_num)]
        omega
      simp only [h0, if_false]
      rw [List.cons_append, readVarIntAux]
      have hi5 : i < 5 := by omega
      simp only [hi5, if_true]
      have hblt : uv % 128 + 128 < 256 := by
        omega
      have hbmod : (uv % 128 + 128) % 256 = uv % 128 + 128 :=
        Nat.mod_eq_of_lt hblt
      have hnotlt : ¬ (uv % 128 + 128) % 256 < 128 := by omega
      simp only [hnotlt, if_false]
      have hb128 : (uv % 128 + 128) % 128 = uv % 128 := by
        omega
      rw [hb128]
      rw [lor_shiftLeft_eq_add (uv % 128) (7 * i) hnum]
      have hnum2 : num + uv % 128 * 2 ^ (7 * i) < 2 ^ (7 * (i + 1)) := by
        have hm : uv % 128 ≤ 127 := by omega
        have h1 : num + uv % 128 * 2 ^ (7 * i) < 2 ^ (7 * i) + 127 * 2 ^ (7 * i) := by
          have : uv % 128 * 2 ^ (7 * i) ≤ 127 * 2 ^ (7 * i) :=
            Nat.mul_le_mul_right _ hm
          omega
        have h2 : 2 ^ (7 * i) + 127 * 2 ^ (7 * i) = 2 ^ (7 * (i + 1)) := by
          have : 2 ^ (7 * (i + 1)) = 2 ^ (7 * i) * 2 ^ 7 := by
            rw [← pow_add]; ring_nf
          rw [this]; ring
        omega
      have hshift : 7 * i + 7 = 7 * (i + 1) := by ring
      rw [hshift]
      rw [ih rest hf hdiv (by omega) hnum2]
      have harith : num + uv % 128 * 2 ^ (7 * i) + uv / 128 * 2 ^ (7 * (i + 1)) =
          num + uv * 2 ^ (7 * i) := by
        have hsplit : uv = 128 * (uv / 128) + uv % 128 :=
          (Nat.div_add_mod uv 128).symm ▸ by omega
        have hp : 2 ^ (7 * (i + 1)) = 2 ^ (7 * i) * 128 := by
          have : 2 ^ (7 * (i + 1)) = 2 ^ (7 * i) * 2 ^ 7 := by
            rw [← pow_add]; ring_nf
          simpa using this
        rw [hp]
        nlinarith [hsplit]
      rw [harith]
      simp [List.length_cons]
      omega

/-- Minimality of the encoding: the first 7-bit group shy of the length
would not fit the value. -/
theorem encodeVarIntAux_minimal {fuel : Nat} :
    ∀ {uv : Nat}, 0 < fuel → uv < 2 ^ (7 * fuel) →
      (uv < 2 ^ (7 * (encodeVarIntAux fuel uv).length) ∧
        ((encodeVarIntAux fuel uv).length = 1 ∨
          2 ^ (7 * ((encodeVarIntAux fuel uv).length - 1)) ≤ uv)) := by
  induction fuel with
  | zero => intro uv h; omega
  | succ f ih =>
    intro uv _ hu
    rw [encodeVarIntAux]
    by_cases h0 : uv / 128 = 0
    · have huv : uv < 128 := by omega
      simp only [h0, if_true]
      constructor
      · simpa using huv
      · left; rfl
    · have hf : 0 < f := by
        rcases Nat.eq_zero_or_pos f with hf0 | hf0
        · subst hf0
          have : uv < 128 := by
            have : 2 ^ (7 * 1) = 128 := by norm_num
            omega
          omega
        · exact hf0
      have hdiv : uv / 128 < 2 ^ (7 * f) := by
        have : 2 ^ (7 * (f + 1)) = 2 ^ (7 * f) * 2 ^ 7 := by
          rw [← pow_add]; ring_nf
        rw [Nat.div_lt_iff_lt_mul (by norm_num)]
        omega
      obtain ⟨ihlt, ihmin⟩ := ih hf hdiv
      simp only [h0, if_false, List.length_cons]
      have hlen1 : 1 ≤ (encodeVarIntAux f (uv / 128)).length :=
        (encodeVarIntAux_length hf hdiv).1
      set L := (encodeVarIntAux f (uv / 128)).length with hL
      constructor
      · have hstep : uv < 2 ^ (7 * L) * 128 := by
          have h3 : uv / 128 < 2 ^ (7 * L) := ihlt
          have hx : uv < (uv / 128 + 1) * 128 := by omega
          calc uv < (uv / 128 + 1) * 128 := hx
            _ ≤ 2 ^ (7 * L) * 128 := by
              have : uv / 128 + 1 ≤ 2 ^ (7 * L) := ihlt
              exact Nat.mul_le_mul_right _ this
        have : 2 ^ (7 * (L + 1)) = 2 ^ (7 * L) * 128 := by
          have : 2 ^ (7 * (L + 1)) = 2 ^ (7 * L) * 2 ^ 7 := by
            rw [← pow_add]; ring_nf
          simpa using this
        omega
      · right
        have hge : 2 ^ (7 * (L - 1)) * 128 ≤ uv := by
          rcases ihmin with h1 | h2
          · have : uv / 128 ≥ 1 := Nat.one_le_iff_ne_zero.mpr h0
            have h128 : 128 ≤ uv := by
              by_contra hc
              push_neg at hc
              have : uv / 128 = 0 := Nat.div_eq_of_lt hc
              omega
            simp only [h1]
            simpa using h128
          · have hmul : 2 ^ (7 * (L - 1)) ≤ uv / 128 := h2
            calc 2 ^ (7 * (L - 1)) * 128 ≤ uv / 128 * 128 :=
                  Nat.mul_le_mul_right _ hmul
              _ ≤ uv := Nat.div_mul_le_self uv 128
        have heq : 2 ^ (7 * (L + 1 - 1)) = 2 ^ (7 * (L - 1)) * 128 := by
          have hL1 : L + 1 - 1 = (L - 1) + 1 := by omega
          rw [hL1]
          have : 2 ^ (7 * ((L - 1) + 1)) = 2 ^ (7 * (L - 1)) * 2 ^ 7 := by
            rw [← pow_add]; ring_nf
          simpa using this
        omega

/-- The decode loop consumes between `i + 1` and 5 bytes counting from
loop index `i`, so a successful top-level decode consumes 1 to 5 bytes. -/
theorem readVarIntAux_consumed :
    ∀ (l : List Nat) (i shift num v c : Nat),
      readVarIntAux l i shift num = some (v, c) → i < c ∧ c ≤ 5 := by
  intro l
  induction l with
  | nil => intro i shift num v c h; simp [readVarIntAux] at h
  | cons b rest ih =>
    intro i shift num v c h
    rw [readVarIntAux] at h
    by_cases hi : i < 5
    · simp only [hi, if_true] at h
      by_cases hb : b % 256 < 128
      · simp only [hb, if_true, Option.some.injEq, Prod.mk.injEq] at h
        omega
      · simp only [hb, if_false] at h
        have := ih _ _ _ _ _ h
        omega
    · simp [hi] at h

theorem toInt32_emod (v : Int) (h1 : -2 ^ 31 ≤ v) (h2 : v < 2 ^ 31) :
    toInt32 ((v % 2 ^ 32).toNat) = v := by
  unfold toInt32
  have h0 : (0 : Int) ≤ v % 2 ^ 32 := Int.emod_nonneg _ (by norm_num)
  have hlt : v % 2 ^ 32 < 2 ^ 32 := Int.emod_lt_of_pos _ (by norm_num)
  rcases le_or_lt 0 v with hv | hv
  · have : v % 2 ^ 32 = v := Int.emod_eq_of_lt hv (by omega)
    rw [this]
    split <;> omega
  · have : v % 2 ^ 32 = v + 2 ^ 32 := by omega
    rw [this]
    split <;> omega

/-- The unsigned bit pattern of an `int32` is below `2^32`. -/
theorem emod_toNat_lt (v : Int) : (v % 2 ^ 32).toNat < 2 ^ 32 := by
  have h0 : (0 : Int) ≤ v % 2 ^ 32 := Int.emod_nonneg _ (by norm_num)
  have hlt : v % 2 ^ 32 < 2 ^ 32 := Int.emod_lt_of_pos _ (by norm_num)
  omega

/-- Instantiated round-trip: decoding the encoding of any `uint32` bit
pattern, with arbitrary trailing bytes, returns the pattern and consumes
exactly the encoded bytes. -/
theorem readVarInt_encodeVarInt (v : Int) (rest : List Nat) :
    readVarInt (encodeVarInt v ++ rest) =
      some ((v % 2 ^ 32).toNat, (encodeVarInt v).length) := by
  have h32 := emod_toNat_lt v
  have h35 : (v % 2 ^ 32).toNat < 2 ^ (7 * 5) := by
    have : (2 : Nat) ^ 32 ≤ 2 ^ 35 := Nat.pow_le_pow_right (by norm_num) (by norm_num)
    have h : 2 ^ (7 * 5) = 2 ^ 35 := by norm_num
    omega
  unfold readVarInt encodeVarInt
  have h := @readVarIntAux_encode 5 ((v % 2 ^ 32).toNat) 0 0 rest
    (by norm_num) h35 (by norm_num) (by norm_num)
  simpa using h

/-- C5: For every int32 value v, VarInt-encoding v (negatives via their
unsigned 32-bit pattern) and then decoding yields v back; decoding never
consumes more than 5 bytes from the input; and encoding always emits the
minimal number of bytes (between 1 and 5) and never fails (it is a total
function; the final two conjuncts of the first part pin minimality: the
emitted length suffices for the value and one byte fewer would not). -/
theorem C5_varint_roundtrip :
    (∀ v : Int, -2 ^ 31 ≤ v → v < 2 ^ 31 → ∀ rest : List Nat,
      readVarInt (encodeVarInt v ++ rest) =
        some ((v % 2 ^ 32).toNat, (encodeVarInt v).length) ∧
      toInt32 ((v % 2 ^ 32).toNat) = v ∧
      1 ≤ (encodeVarInt v).length ∧ (encodeVarInt v).length ≤ 5 ∧
      (v % 2 ^ 32).toNat < 2 ^ (7 * (encodeVarInt v).length) ∧
      ((encodeVarInt v).length = 1 ∨
        2 ^ (7 * ((encodeVarInt v).length - 1)) ≤ (v % 2 ^ 32).toNat)) ∧
    (∀ (l : List Nat) (x c : Nat), readVarInt l = some (x, c) → c ≤ 5) := by
  constructor
  · intro v h1 h2 rest
    have h32 := emod_toNat_lt v
    have h35 : (v % 2 ^ 32).toNat < 2 ^ (7 * 5) := by
      have : (2 : Nat) ^ 32 < 2 ^ 35 :=
        Nat.pow_lt_pow_right (by norm_num) (by norm_num)
      have h55 : 7 * 5 = 35 := by norm_num
      omega
    have hlen := @encodeVarIntAux_length 5 ((v % 2 ^ 32).toNat)
      (by norm_num) h35
    have hmin := @encodeVarIntAux_minimal 5 ((v % 2 ^ 32).toNat)
      (by norm_num) h35
    refine ⟨readVarInt_encodeVarInt v rest, toInt32_emod v h1 h2, ?_, ?_, ?_, ?_⟩
    · exact hlen.1
    · exact hlen.2
    · exact hmin.1
    · exact hmin.2
  · intro l x c h
    exact (readVarIntAux_consumed l 0 0 0 x c h).2

/-- Witness for C5 at v = -1 (the all-ones pattern, 5 bytes). -/
theorem C5_varint_roundtrip_witness :
    readVarInt (encodeVarInt (-1) ++ []) =
      some ((((-1 : Int)) % 2 ^ 32).toNat, (encodeVarInt (-1)).length) ∧
    toInt32 ((((-1 : Int)) % 2 ^ 32).toNat) = -1 :=
  ⟨(C5_varint_roundtrip.1 (-1) (by norm_num) (by norm_num) []).1,
    (C5_varint_roundtrip.1 (-1) (by norm_num) (by norm_num) []).2.1⟩

/-! ## Recording-entry layout lemmas -/

theorem readBE32_be32 (n : Nat) (rest : List Nat) (h : n < 2 ^ 32) :
    readBE32 (be32 n ++ rest) = some (n, rest) := by
  have e1 : (2 : Nat) ^ 24 = 16777216 := by norm_num
  have e2 : (2 : Nat) ^ 16 = 65536 := by norm_num
  have e3 : (2 : Nat) ^ 8 = 256 := by norm_num
  have e4 : (2 : Nat) ^ 32 = 4294967296 := by norm_num
  rw [e4] at h
  simp only [be32, e1, e2, e3, List.cons_append, List.nil_append, readBE32,
    Option.some.injEq, Prod.mk.injEq]
  exact ⟨by omega, trivial⟩

theorem packetBytes_length_pos (m : Msg) : 0 < (packetBytes m).length := by
  simp [packetBytes, be32]

theorem decodeAux_packets :
    ∀ (msgs : List Msg) (fuel : Nat), (∀ m ∈ msgs, MsgWf m) →
      msgs.length ≤ fuel →
      decodeAux fuel ((msgs.map packetBytes).flatten) = some msgs := by
  intro msgs
  induction msgs with
  | nil => intro fuel _ _; cases fuel <;> rfl
  | cons m ms ih =>
    intro fuel hwf hlen
    obtain ⟨hts, hid1, hid2, hfit⟩ := hwf m (by simp)
    obtain ⟨f, rfl⟩ : ∃ f, fuel = f + 1 := by
      cases fuel with
      | zero => simp at hlen
      | succ f => exact ⟨f, rfl⟩
    have hjoin : ((m :: ms).map packetBytes).flatten =
        packetBytes m ++ (ms.map packetBytes).flatten := by
      simp
    rw [hjoin]
    rw [decodeAux]
    · have hassoc : packetBytes m ++ (ms.map packetBytes).flatten =
          be32 m.ts ++ (be32 ((encodeVarInt m.id).length + m.payload.length) ++
            (encodeVarInt m.id ++ (m.payload ++ (ms.map packetBytes).flatten))) := by
        simp [packetBytes]
      rw [hassoc, readBE32_be32 m.ts _ hts]
      dsimp only
      rw [readBE32_be32 ((encodeVarInt m.id).length + m.payload.length) _ hfit]
      dsimp only
      have hr2 : encodeVarInt m.id ++ (m.payload ++ (ms.map packetBytes).flatten) =
          (encodeVarInt m.id ++ m.payload) ++ (ms.map packetBytes).flatten := by
        simp
      have hlen2 : (encodeVarInt m.id ++ m.payload).length =
          (encodeVarInt m.id).length + m.payload.length := by
        simp
      have hnotlt : ¬ (encodeVarInt m.id ++ (m.payload ++
          (ms.map packetBytes).flatten)).length <
          (encodeVarInt m.id).length + m.payload.length := by
        simp
      simp only [hnotlt, if_false]
      rw [hr2, List.take_left' hlen2, List.drop_left' hlen2]
      rw [readVarInt_encodeVarInt m.id m.payload]
      dsimp only
      rw [List.drop_left' rfl]
      rw [ih _ (fun x hx => hwf x (by simp [hx])) (by simpa using hlen)]
      dsimp only
      have huv32 : ((m.id % 2 ^ 32).toNat) % 2 ^ 32 = (m.id % 2 ^ 32).toNat :=
        Nat.mod_eq_of_lt (emod_toNat_lt m.id)
      have hto : toInt32 ((m.id % 2 ^ 32).toNat % 2 ^ 32) = m.id := by
        rw [huv32]; exact toInt32_emod m.id hid1 hid2
      rw [hto]
    · intro hnil
      have hlenn := congrArg List.length hnil
      have hpos := packetBytes_length_pos m
      simp only [List.length_append, List.length_nil] at hlenn
      omega

theorem flatten_packets_length (msgs : List Msg) :
    msgs.length ≤ ((msgs.map packetBytes).flatten).length := by
  induction msgs with
  | nil => simp
  | cons m ms ih =>
    have hpos := packetBytes_length_pos m
    simp only [List.map_cons, List.flatten_cons, List.length_append,
      List.length_cons]
    omega

/-- Round-trip at the whole-entry level. -/
theorem decodeRecording_packets (msgs : List Msg) (h : ∀ m ∈ msgs, MsgWf m) :
    decodeRecording ((msgs.map packetBytes).flatten) = some msgs :=
  decodeAux_packets msgs _ h (flatten_packets_length msgs)

/-! ## Zip/writer structural lemmas -/

theorem zipCreate_fst_ops (z : ZipW) (name : String) (env : List Bool) :
    ((zipCreate z name env).1).ops = z.ops ++ [ZOp.create name] := by
  unfold zipCreate popEnv
  dsimp only
  split <;> rfl

theorem zipWrite_fst_ops (z : ZipW) (name : String) (c : Chunk) (env : List Bool) :
    ((zipWrite z name c env).1).ops = z.ops ++ [ZOp.write name] := by
  unfold zipWrite popEnv
  cases z.cur
  · rfl
  · dsimp only
    split
    · split <;> rfl
    · rfl

theorem zipClose_fst_ops (z : ZipW) (env : List Bool) :
    ((zipClose z env).1).ops = z.ops ++ [ZOp.closeArchive] := by
  unfold zipClose popEnv
  dsimp only
  split <;> rfl

theorem zipClose_success_closedZ (z : ZipW) (env : List Bool)
    (h : (zipClose z env).2.2 = none) : ((zipClose z env).1).closedZ = true := by
  unfold zipClose popEnv at h ⊢
  dsimp only at h ⊢
  by_cases hok : env.headD true = true
  · rw [if_pos hok]
  · rw [if_neg hok] at h
    simp at h

theorem zipWrite_err_shape (z : ZipW) (name : String) (c : Chunk)
    (env : List Bool) (e : WErr) (h : (zipWrite z name c env).2.2 = some e) :
    e = WErr.writeFail name ∨ e = WErr.entryClosed name := by
  unfold zipWrite popEnv at h
  cases hcur : z.cur
  · rw [hcur] at h
    dsimp only at h
    simp only [Option.some.injEq] at h
    exact Or.inr h.symm
  · rw [hcur] at h
    dsimp only at h
    split at h
    · split at h
      · simp at h
      · simp only [Option.some.injEq] at h
        exact Or.inl h.symm
    · simp only [Option.some.injEq] at h
      exact Or.inr h.symm

theorem zipCreate_trueEnv (z : ZipW) (name : String) :
    zipCreate z name trueEnv =
      (⟨z.done ++ z.cur.toList, some ⟨name, []⟩, z.closedZ,
        z.ops ++ [ZOp.create name]⟩, trueEnv, none) := rfl

theorem zipClose_trueEnv (z : ZipW) :
    zipClose z trueEnv =
      (⟨z.done ++ z.cur.toList, none, true, z.ops ++ [ZOp.closeArchive]⟩,
        trueEnv, none) := rfl

theorem zipWrite_trueEnv (z : ZipW) (name : String) (cs : List Chunk)
    (c : Chunk) (hcur : z.cur = some ⟨name, cs⟩) :
    zipWrite z name c trueEnv =
      ({ z with
          cur := some ⟨name, cs ++ [c]⟩,
          ops := z.ops ++ [ZOp.write name] }, trueEnv, none) := by
  unfold zipWrite popEnv
  rw [hcur]
  dsimp only
  rw [if_pos rfl]
  rfl

theorem writeRec_trueEnv (w : Writer) (bs : List Nat) (cs : List Chunk)
    (hcur : w.zw.cur = some ⟨"recording.tmcpr", cs⟩) :
    writeRec w bs trueEnv =
      ({ w with
          zw := { w.zw with
                  cur := some ⟨"recording.tmcpr", cs ++ [Chunk.bytes bs]⟩,
                  ops := w.zw.ops ++ [ZOp.write "recording.tmcpr"] },
          crcBytes := w.crcBytes ++ bs }, trueEnv, none) := by
  unfold writeRec
  rw [zipWrite_trueEnv w.zw "recording.tmcpr" cs (Chunk.bytes bs) hcur]

theorem entryBytes_append_bytes (name : String) (cs : List Chunk) (bs : List Nat) :
    entryBytes ⟨name, cs ++ [Chunk.bytes bs]⟩ = entryBytes ⟨name, cs⟩ ++ bs := by
  simp [entryBytes]

theorem writePacket_recOpen (w : Writer) (ts : Nat) (pid : Int)
    (pl : List Nat) (h : RecOpen w) :
    ∃ w', writePacket w ts pid pl trueEnv = (w', trueEnv, none) ∧ RecOpen w' ∧
      w'.crcBytes = w.crcBytes ++ packetBytes ⟨ts, pid, pl⟩ ∧
      w'.meta = w.meta ∧ w'.zw.done = w.zw.done ∧
      w'.duration = (if ts > w.duration then ts else w.duration) := by
  obtain ⟨hc, cs, hcur, hbytes⟩ := h
  unfold writePacket
  rw [if_neg (by simp [hc])]
  dsimp only
  rw [writeRec_trueEnv w _ cs hcur]
  dsimp only
  rw [writeRec_trueEnv _ _ (cs ++ [Chunk.bytes (be32 ts ++ be32 ((encodeVarInt pid).length + pl.length))]) rfl]
  dsimp only
  rw [writeRec_trueEnv _ _ _ rfl]
  dsimp only
  by_cases hts : ts > w.duration
  · rw [if_pos hts]
    refine ⟨_, rfl, ⟨hc, _, rfl, ?_⟩, ?_, rfl, rfl, ?_⟩
    · simp only [entryBytes_append_bytes, hbytes]
    · simp [packetBytes, List.append_assoc]
    · rw [if_pos hts]
  · rw [if_neg hts]
    refine ⟨_, rfl, ⟨hc, _, rfl, ?_⟩, ?_, rfl, rfl, ?_⟩
    · simp only [entryBytes_append_bytes, hbytes]
    · simp [packetBytes, List.append_assoc]
    · rw [if_neg hts]

theorem writeAllE_recOpen :
    ∀ (msgs : List Msg) (w : Writer), RecOpen w →
      ∃ w', writeAllE w msgs = (w', none) ∧ RecOpen w' ∧
        w'.crcBytes = w.crcBytes ++ (msgs.map packetBytes).flatten ∧
        w'.meta = w.meta ∧ w'.zw.done = w.zw.done ∧
        w'.duration =
          msgs.foldl (fun d m => if m.ts > d then m.ts else d) w.duration := by
  intro msgs
  induction msgs with
  | nil =>
    intro w h
    exact ⟨w, rfl, h, by simp, rfl, rfl, rfl⟩
  | cons m ms ih =>
    intro w h
    obtain ⟨w1, hw1, h1, hcrc1, hmeta1, hdone1, hdur1⟩ :=
      writePacket_recOpen w m.ts m.id m.payload h
    obtain ⟨w2, hw2, h2, hcrc2, hmeta2, hdone2, hdur2⟩ := ih w1 h1
    refine ⟨w2, ?_, h2, ?_, ?_, ?_, ?_⟩
    · unfold writeAllE
      rw [hw1]
      exact hw2
    · rw [hcrc2, hcrc1]
      simp
    · rw [hmeta2, hmeta1]
    · rw [hdone2, hdone1]
    · rw [hdur2, hdur1]
      rfl

theorem metaDefaultsClose_duration (m : Meta) (d : Nat) :
    (metaDefaultsClose m d).duration = d := by
  unfold metaDefaultsClose
  dsimp only
  split_ifs <;> rfl

/-- Full computation of a successful `Close` on a writer whose recording
entry is still open, with all I/O succeeding. -/
theorem closeW_recOpen (w : Writer) (h : RecOpen w) :
    ∃ cs, w.zw.cur = some ⟨"recording.tmcpr", cs⟩ ∧
      closeW w trueEnv =
        ({ zw := { done := w.zw.done ++ [⟨"recording.tmcpr", cs⟩,
                     ⟨"metaData.json",
                       [Chunk.metaJson (metaDefaultsClose w.meta w.duration)]⟩,
                     ⟨"mods.json", [Chunk.modsJson]⟩,
                     ⟨"recording.tmcpr.crc32", [Chunk.crcOf w.crcBytes]⟩],
                   cur := none, closedZ := true,
                   ops := w.zw.ops ++ [ZOp.create "metaData.json",
                     ZOp.write "metaData.json", ZOp.create "mods.json",
                     ZOp.write "mods.json", ZOp.create "recording.tmcpr.crc32",
                     ZOp.write "recording.tmcpr.crc32", ZOp.closeArchive] },
           meta := metaDefaultsClose w.meta w.duration,
           duration := w.duration, closed := true,
           crcBytes := w.crcBytes }, trueEnv, none) := by
  obtain ⟨hc, cs, hcur, _⟩ := h
  refine ⟨cs, hcur, ?_⟩
  unfold closeW
  rw [if_neg (by simp [hc])]
  dsimp only
  rw [zipCreate_trueEnv]
  dsimp only
  rw [zipWrite_trueEnv _ "metaData.json" [] _ rfl]
  dsimp only
  rw [zipCreate_trueEnv]
  dsimp only
  rw [zipWrite_trueEnv _ "mods.json" [] _ rfl]
  dsimp only
  rw [zipCreate_trueEnv]
  dsimp only
  rw [zipWrite_trueEnv _ "recording.tmcpr.crc32" [] _ rfl]
  dsimp only
  rw [zipClose_trueEnv]
  dsimp only
  rw [hcur]
  simp [Option.toList, List.append_assoc]

/-- Branch analysis of `Writer.Close`: the operations it performs never
include a validation step and (when it runs at all) start with creating
`metaData.json`; an error leaves the `closed` flag unset; success sets
it; and the flag is only ever set after the archive itself closed
successfully. -/
theorem closeW_master (w : Writer) (env : List Bool) :
    (∃ δ, (closeW w env).1.zw.ops = w.zw.ops ++ δ ∧ ZOp.validate ∉ δ ∧
      (w.closed = false → ∃ δ', δ = ZOp.create "metaData.json" :: δ')) ∧
    (∀ e, (closeW w env).2.2 = some e → (closeW w env).1.closed = false) ∧
    ((closeW w env).2.2 = none → (closeW w env).1.closed = true) ∧
    ((closeW w env).1.closed = true →
      w.closed = true ∨
        ((closeW w env).2.2 = none ∧ (closeW w env).1.zw.closedZ = true)) := by
  by_cases hc : w.closed = true
  · rw [closeW, if_pos hc]
    refine ⟨⟨[], by simp, by simp, ?_⟩, ?_, ?_, ?_⟩
    · intro hf
      rw [hf] at hc
      exact Bool.noConfusion hc
    · intro e he
      exact Option.noConfusion he
    · intro _
      exact hc
    · intro _
      exact Or.inl hc
  · have hcf : w.closed = false := by simpa using hc
    rw [closeW, if_neg hc]
    dsimp only
    rcases h1 : zipCreate w.zw "metaData.json" env with ⟨z1, env1, e1⟩
    have hops1 : z1.ops = w.zw.ops ++ [ZOp.create "metaData.json"] := by
      have hx := zipCreate_fst_ops w.zw "metaData.json" env
      rw [h1] at hx
      exact hx
    cases e1 with
    | some err =>
      dsimp only
      exact ⟨⟨[ZOp.create "metaData.json"], by simp [hops1], by simp,
        fun _ => ⟨[], rfl⟩⟩, fun e _ => hcf,
        fun he => Option.noConfusion he, fun hcl => absurd hcl hc⟩
    | none =>
      dsimp only
      rcases h2 : zipWrite z1 "metaData.json"
          (Chunk.metaJson (metaDefaultsClose w.meta w.duration)) env1 with ⟨z2, env2, e2⟩
      have hops2 : z2.ops = w.zw.ops ++
          [ZOp.create "metaData.json", ZOp.write "metaData.json"] := by
        have hx := zipWrite_fst_ops z1 "metaData.json"
          (Chunk.metaJson (metaDefaultsClose w.meta w.duration)) env1
        rw [h2] at hx
        rw [hx, hops1]
        simp
      cases e2 with
      | some err =>
        dsimp only
        exact ⟨⟨_, hops2, by simp, fun _ => ⟨_, rfl⟩⟩, fun e _ => hcf,
          fun he => Option.noConfusion he, fun hcl => absurd hcl hc⟩
      | none =>
        dsimp only
        rcases h3 : zipCreate z2 "mods.json" env2 with ⟨z3, env3, e3⟩
        have hops3 : z3.ops = w.zw.ops ++
            [ZOp.create "metaData.json", ZOp.write "metaData.json",
             ZOp.create "mods.json"] := by
          have hx := zipCreate_fst_ops z2 "mods.json" env2
          rw [h3] at hx
          rw [hx, hops2]
          simp
        cases e3 with
        | some err =>
          dsimp only
          exact ⟨⟨_, hops3, by simp, fun _ => ⟨_, rfl⟩⟩, fun e _ => hcf,
            fun he => Option.noConfusion he, fun hcl => absurd hcl hc⟩
        | none =>
          dsimp only
          rcases h4 : zipWrite z3 "mods.json" Chunk.modsJson env3 with ⟨z4, env4, e4⟩
          have hops4 : z4.ops = w.zw.ops ++
              [ZOp.create "metaData.json", ZOp.write "metaData.json",
               ZOp.create "mods.json", ZOp.write "mods.json"] := by
            have hx := zipWrite_fst_ops z3 "mods.json" Chunk.modsJson env3
            rw [h4] at hx
            rw [hx, hops3]
            simp
          cases e4 with
          | some err =>
            dsimp only
            exact ⟨⟨_, hops4, by simp, fun _ => ⟨_, rfl⟩⟩, fun e _ => hcf,
              fun he => Option.noConfusion he, fun hcl => absurd hcl hc⟩
          | none =>
            dsimp only
            rcases h5 : zipCreate z4 "recording.tmcpr.crc32" env4 with ⟨z5, env5, e5⟩
            have hops5 : z5.ops = w.zw.ops ++
                [ZOp.create "metaData.json", ZOp.write "metaData.json",
                 ZOp.create "mods.json", ZOp.write "mods.json",
                 ZOp.create "recording.tmcpr.crc32"] := by
              have hx := zipCreate_fst_ops z4 "recording.tmcpr.crc32" env4
              rw [h5] at hx
              rw [hx, hops4]
              simp
            cases e5 with
            | some err =>
              dsimp only
              exact ⟨⟨_, hops5, by simp, fun _ => ⟨_, rfl⟩⟩, fun e _ => hcf,
                fun he => Option.noConfusion he, fun hcl => absurd hcl hc⟩
            | none =>
              dsimp only
              rcases h6 : zipWrite z5 "recording.tmcpr.crc32"
                  (Chunk.crcOf w.crcBytes) env5 with ⟨z6, env6, e6⟩
              have hops6 : z6.ops = w.zw.ops ++
                  [ZOp.create "metaData.json", ZOp.write "metaData.json",
                   ZOp.create "mods.json", ZOp.write "mods.json",
                   ZOp.create "recording.tmcpr.crc32",
                   ZOp.write "recording.tmcpr.crc32"] := by
                have hx := zipWrite_fst_ops z5 "recording.tmcpr.crc32"
                  (Chunk.crcOf w.crcBytes) env5
                rw [h6] at hx
                rw [hx, hops5]
                simp
              cases e6 with
              | some err =>
                dsimp only
                exact ⟨⟨_, hops6, by simp, fun _ => ⟨_, rfl⟩⟩, fun e _ => hcf,
                  fun he => Option.noConfusion he, fun hcl => absurd hcl hc⟩
              | none =>
                dsimp only
                rcases h7 : zipClose z6 env6 with ⟨z7, env7, e7⟩
                have hops7 : z7.ops = w.zw.ops ++
                    [ZOp.create "metaData.json", ZOp.write "metaData.json",
                     ZOp.create "mods.json", ZOp.write "mods.json",
                     ZOp.create "recording.tmcpr.crc32",
                     ZOp.write "recording.tmcpr.crc32", ZOp.closeArchive] := by
                  have hx := zipClose_fst_ops z6 env6
                  rw [h7] at hx
                  rw [hx, hops6]
                  simp
                cases e7 with
                | some err =>
                  dsimp only
                  exact ⟨⟨_, hops7, by simp, fun _ => ⟨_, rfl⟩⟩, fun e _ => hcf,
                    fun he => Option.noConfusion he, fun hcl => absurd hcl hc⟩
                | none =>
                  dsimp only
                  have hclz : z7.closedZ = true := by
                    have hx := zipClose_success_closedZ z6 env6 (by rw [h7])
                    rw [h7] at hx
                    exact hx
                  exact ⟨⟨_, hops7, by simp, fun _ => ⟨_, rfl⟩⟩,
                    fun e he => Option.noConfusion he, fun _ => rfl,
                    fun _ => Or.inr ⟨rfl, hclz⟩⟩

/-- Errors out of the packet write path are write failures on the
recording entry, never the writer-closed error. -/
theorem writeRec_err_shape (w : Writer) (bs : List Nat) (env : List Bool)
    (e : WErr) (h : (writeRec w bs env).2.2 = some e) :
    e = WErr.writeFail "recording.tmcpr" ∨ e = WErr.entryClosed "recording.tmcpr" := by
  unfold writeRec at h
  rcases hz : zipWrite w.zw "recording.tmcpr" (Chunk.bytes bs) env with ⟨z, env', ez⟩
  rw [hz] at h
  cases ez with
  | some err =>
    dsimp only at h
    simp only [Option.some.injEq] at h
    subst h
    exact zipWrite_err_shape w.zw "recording.tmcpr" (Chunk.bytes bs) env err
      (by rw [hz])
  | none =>
    exact Option.noConfusion h

theorem writePacket_err_shape (w : Writer) (ts : Nat) (pid : Int)
    (pl : List Nat) (env : List Bool) (e : WErr) (hc : w.closed = false)
    (h : (writePacket w ts pid pl env).2.2 = some e) :
    e = WErr.writeFail "recording.tmcpr" ∨ e = WErr.entryClosed "recording.tmcpr" := by
  unfold writePacket at h
  rw [if_neg (by simp [hc])] at h
  dsimp only at h
  rcases h1 : writeRec w (be32 ts ++ be32 ((encodeVarInt pid).length + pl.length))
      env with ⟨w1, env1, e1⟩
  rw [h1] at h
  cases e1 with
  | some err =>
    dsimp only at h
    simp only [Option.some.injEq] at h
    subst h
    exact writeRec_err_shape _ _ _ _ (by rw [h1])
  | none =>
    dsimp only at h
    rcases h2 : writeRec w1 (encodeVarInt pid) env1 with ⟨w2, env2, e2⟩
    rw [h2] at h
    cases e2 with
    | some err =>
      dsimp only at h
      simp only [Option.some.injEq] at h
      subst h
      exact writeRec_err_shape _ _ _ _ (by rw [h2])
    | none =>
      dsimp only at h
      rcases h3 : writeRec w2 pl env2 with ⟨w3, env3, e3⟩
      rw [h3] at h
      cases e3 with
      | some err =>
        dsimp only at h
        simp only [Option.some.injEq] at h
        subst h
        exact writeRec_err_shape _ _ _ _ (by rw [h3])
      | none =>
        exact Option.noConfusion h

/-- A packet write on a writer whose recording entry has been superseded
(current zip entry is gone) attempts the append and gets the
write-after-close error, not the writer-closed error. -/
theorem writePacket_curNone (w : Writer) (ts : Nat) (pid : Int)
    (pl : List Nat) (env : List Bool) (hc : w.closed = false)
    (hcur : w.zw.cur = none) :
    (writePacket w ts pid pl env).2.2 =
      some (WErr.entryClosed "recording.tmcpr") := by
  unfold writePacket
  rw [if_neg (by simp [hc])]
  dsimp only
  unfold writeRec zipWrite
  rw [hcur]

/-! ## Frame-recorder lemmas -/

/-- A rejected frame length stops the loop with the state untouched. -/
theorem parseLoop_badLen (inflate : List Nat → Option (List Nat))
    (clock : Nat → Nat) (anc gc : Bool) (fuel : Nat) (input : List Nat)
    (st : PState) (env : List Bool) (k l n : Nat)
    (hr : readVarInt input = some (l, n)) (hl : l = 0 ∨ maxFrame < l) :
    parseLoop inflate clock anc gc (fuel + 1) input st env k =
      (st, some (PErr.invalidFrameLen l)) := by
  rw [parseLoop, hr]
  dsimp only
  rw [if_pos hl]

/-- Once enabled, `compressionEnabled` stays enabled for the rest of the
run. -/
theorem parseLoop_compression_mono (inflate : List Nat → Option (List Nat))
    (clock : Nat → Nat) (anc gc : Bool) :
    ∀ (fuel : Nat) (input : List Nat) (st : PState) (env : List Bool)
      (k : Nat), st.compressionEnabled = true →
      ((parseLoop inflate clock anc gc fuel input st env k).1).compressionEnabled
        = true := by
  intro fuel
  induction fuel with
  | zero => intro input st env k h; exact h
  | succ f ih =>
    intro input st env k h
    rw [parseLoop]
    cases hr : readVarInt input with
    | none => exact h
    | some v =>
      obtain ⟨l, n⟩ := v
      dsimp only
      split
      · exact h
      · split
        · exact h
        · split
          · exact h
          · split
            · simp [h]
            · exact ih _ _ _ _ (by simp [h])

end MCReplay

namespace MCReplay

/-! ## Claim theorems -/

/-- C1 (code evidence): `Writer.Close` — and `Recorder.Close`, which
delegates to it — performs only archive operations (creating and writing
the metadata/mods/checksum entries and closing the archive) and never a
validation step: no end-to-end structural self-check of the just-written
file runs at finalize, so no self-check failure can be surfaced to the
caller.  `validateArchive`, the embedded `ValidateFile`, is never
invoked; the `ZOp.validate` marker it would log never appears in the
operation trace of a close. -/
theorem C1_close_never_validates :
    (∀ (w : Writer) (env : List Bool), ∃ δ,
      (closeW w env).1.zw.ops = w.zw.ops ++ δ ∧ ZOp.validate ∉ δ) ∧
    (∀ (r : Recorder) (env : List Bool), ∃ δ,
      (recClose r env).1.w.zw.ops = r.w.zw.ops ++ δ ∧ ZOp.validate ∉ δ) := by
  constructor
  · intro w env
    obtain ⟨δ, hops, hval, _⟩ := (closeW_master w env).1
    exact ⟨δ, hops, hval⟩
  · intro r env
    unfold recClose
    by_cases hr : r.closed = true
    · rw [if_pos hr]
      exact ⟨[], by simp, by simp⟩
    · rw [if_neg hr]
      dsimp only
      rcases hcw : closeW r.w env with ⟨w', env', e'⟩
      obtain ⟨δ, hops, hval, _⟩ := (closeW_master r.w env).1
      rw [hcw] at hops
      exact ⟨δ, hops, hval⟩

/-- C2 (code evidence): with the parser goroutine stopped (it returned
without closing its end of the pipe, exactly as in the source) and the
pipe still open, the system is deadlocked: the forwarder is stuck inside
`tee.Write` of the previous chunk, no transition exists, and the pending
chunk from the server can never be forwarded to the client.  The mirror
write blocks the primary path instead of dropping the bytes. -/
theorem C2_tee_write_blocks_forwarding :
    stuckTee.pending = [[7]] ∧ stuckTee.parserAlive = false ∧
    stuckTee.pipeClosed = false ∧ ¬ ∃ s', TeeStep stuckTee s' := by
  refine ⟨rfl, rfl, rfl, ?_⟩
  rintro ⟨s', hs⟩
  cases hs with
  | forward c rest hp hpend => exact absurd hp (by decide)
  | teeDeliver c hp ha hcl => exact absurd ha (by decide)
  | teeClosed c hp hcl => exact absurd hcl (by decide)
  | parserStops ha => exact absurd ha (by decide)

/-- C3 counterexample: on a writer whose finalize completed
successfully, `SetSelfID` and `AddPlayer` are not no-ops — they still
mutate the session metadata (there is no closed-guard in the Writer's
methods). -/
theorem C3_counterexample_writer_mutates_after_close :
    closedExampleWriter.closed = true ∧
    closedExampleWriter.meta.selfId = 0 ∧
    (setSelfID closedExampleWriter 5).meta.selfId = 5 ∧
    closedExampleWriter.meta.players = none ∧
    (addPlayer closedExampleWriter "some-uuid").meta.players =
      some ["some-uuid"] := by
  exact ⟨rfl, rfl, rfl, rfl, rfl⟩

/-- C3 (amended): after finalize the Writer's own `SetSelfID`/`AddPlayer`
still mutate SessionMeta (the write has no effect on the already-written
file); the no-op-after-close guarantee holds one level up, at the
Recorder facade, whose `SetSelfID`/`AddPlayer` leave everything
unchanged once closed. -/
theorem C3_amended_facade_noop_after_close :
    (∀ (r : Recorder) (id : Int), r.closed = true → recSetSelfID r id = r) ∧
    (∀ (r : Recorder) (u : String), r.closed = true → recAddPlayer r u = r) ∧
    (∀ (w : Writer) (id : Int), (setSelfID w id).meta.selfId = id) := by
  refine ⟨?_, ?_, ?_⟩
  · intro r id h
    rw [recSetSelfID, if_pos h]
  · intro r u h
    rw [recAddPlayer, if_pos h]
  · intro w id
    rfl

/-- Witness for the amended C3 at a concrete closed recorder. -/
theorem C3_amended_witness :
    recSetSelfID closedExampleRecorder 7 = closedExampleRecorder ∧
    recAddPlayer closedExampleRecorder "u" = closedExampleRecorder ∧
    (setSelfID exampleWriter 7).meta.selfId = 7 :=
  ⟨C3_amended_facade_noop_after_close.1 closedExampleRecorder 7 rfl,
   C3_amended_facade_noop_after_close.2.1 closedExampleRecorder "u" rfl,
   C3_amended_facade_noop_after_close.2.2 exampleWriter 7⟩

/-- C4: for every in-range message sequence written via `WritePacket`
into a fresh writer, (a) the recording entry's bytes are exactly the
concatenation, in write order, of
`[ts: 4B BE][frameLen: 4B BE][varint id][payload]` records, both as fed
to the CRC and as stored in the finished archive's `recording.tmcpr`
entry; (b) decoding the entry reproduces the message sequence exactly;
and (c) the finalized metadata duration equals the maximum timestamp
written. -/
theorem C4_roundtrip_and_duration (meta : Meta) (now : Nat) (w0 : Writer)
    (msgs : List Msg) (hnew : (newWriter meta now trueEnv).1 = some w0)
    (hwf : ∀ m ∈ msgs, MsgWf m) :
    ∃ w1 w2,
      writeAllE w0 msgs = (w1, none) ∧
      w1.crcBytes = (msgs.map packetBytes).flatten ∧
      closeW w1 trueEnv = (w2, trueEnv, none) ∧
      (∃ cs, findEntry w2.zw.done "recording.tmcpr" =
          some ⟨"recording.tmcpr", cs⟩ ∧
        entryBytes ⟨"recording.tmcpr", cs⟩ = (msgs.map packetBytes).flatten) ∧
      decodeRecording ((msgs.map packetBytes).flatten) = some msgs ∧
      w2.meta.duration = maxTs msgs := by
  have hred : (newWriter meta now trueEnv).1 =
      some { zw :=
               { done := [],
                 cur := some ⟨"recording.tmcpr", []⟩,
                 closedZ := false,
                 ops := [ZOp.create "recording.tmcpr"] },
             meta := metaDefaultsNew meta now,
             duration := 0,
             closed := false,
             crcBytes := [] } := rfl
  rw [hred] at hnew
  injection hnew with hw0
  have hro : RecOpen w0 := by
    rw [← hw0]
    exact ⟨rfl, [], rfl, rfl⟩
  obtain ⟨w1, hw1, h1, hcrc, hmeta, hdone, hdur⟩ := writeAllE_recOpen msgs w0 hro
  have hcrc' : w1.crcBytes = (msgs.map packetBytes).flatten := by
    rw [hcrc, ← hw0]
    rfl
  obtain ⟨cs, hcur, hclose⟩ := closeW_recOpen w1 h1
  refine ⟨w1, _, hw1, hcrc', hclose, ⟨cs, ?_, ?_⟩, decodeRecording_packets msgs hwf, ?_⟩
  · dsimp only
    rw [hdone, ← hw0]
    rfl
  · obtain ⟨hc1, cs1, hcur1, hb1⟩ := h1
    rw [hcur1] at hcur
    injection hcur with hent
    injection hent with _ hcs
    rw [hcs] at hb1
    rw [hb1, hcrc']
  · dsimp only
    rw [metaDefaultsClose_duration, hdur, ← hw0]
    rfl

/-- Witness for C4 on the spec's example scenario; the duration is 1500
and the entry decodes back to the two messages. -/
theorem C4_roundtrip_witness :
    (∃ w1 w2,
      writeAllE exampleWriter exampleMsgs = (w1, none) ∧
      w1.crcBytes = (exampleMsgs.map packetBytes).flatten ∧
      closeW w1 trueEnv = (w2, trueEnv, none) ∧
      (∃ cs, findEntry w2.zw.done "recording.tmcpr" =
          some ⟨"recording.tmcpr", cs⟩ ∧
        entryBytes ⟨"recording.tmcpr", cs⟩ =
          (exampleMsgs.map packetBytes).flatten) ∧
      decodeRecording ((exampleMsgs.map packetBytes).flatten) =
        some exampleMsgs ∧
      w2.meta.duration = maxTs exampleMsgs) ∧
    maxTs exampleMsgs = 1500 :=
  ⟨C4_roundtrip_and_duration {} 1 exampleWriter exampleMsgs rfl (by decide),
    rfl⟩

/-- C6: a frame whose declared length decodes to 0 (the VarInt value is
nonnegative, so Go's `<= 0` test means `= 0` here) or exceeds the 8 MiB
cap is rejected: the recorder halts with `invalidFrameLen` and the
writer — every message already recorded — is untouched, from any
mid-stream state and from the top-level entry point. -/
theorem C6_bad_frame_length_halts :
    (∀ (inflate : List Nat → Option (List Nat)) (clock : Nat → Nat)
        (anc gc : Bool) (fuel : Nat) (input : List Nat) (st : PState)
        (env : List Bool) (k l n : Nat),
      readVarInt input = some (l, n) → (l = 0 ∨ maxFrame < l) →
      parseLoop inflate clock anc gc (fuel + 1) input st env k =
        (st, some (PErr.invalidFrameLen l))) ∧
    (∀ (inflate : List Nat → Option (List Nat)) (clock : Nat → Nat)
        (w : Writer) (anc gc : Bool) (ft : Int) (input : List Nat)
        (env : List Bool) (l n : Nat),
      readVarInt input = some (l, n) → (l = 0 ∨ maxFrame < l) →
      parseAndRecord inflate clock w anc gc ft input env =
        (⟨w, decide (0 ≤ ft)⟩, some (PErr.invalidFrameLen l))) := by
  constructor
  · intro inflate clock anc gc fuel input st env k l n hr hl
    exact parseLoop_badLen inflate clock anc gc fuel input st env k l n hr hl
  · intro inflate clock w anc gc ft input env l n hr hl
    unfold parseAndRecord
    exact parseLoop_badLen inflate clock anc gc input.length input
      ⟨w, decide (0 ≤ ft)⟩ env 0 l n hr hl

/-- Witness for C6: a zero frame length (byte `0x00`) and an oversized
frame length (varint for 8 MiB + 1) are both rejected with the writer
unchanged. -/
theorem C6_bad_frame_length_witness :
    parseAndRecord inflNone clk0 exampleWriter false true (-1) [0] trueEnv =
      (⟨exampleWriter, decide (0 ≤ (-1 : Int))⟩,
        some (PErr.invalidFrameLen 0)) ∧
    parseAndRecord inflNone clk0 exampleWriter false true (-1)
        [129, 128, 128, 4] trueEnv =
      (⟨exampleWriter, decide (0 ≤ (-1 : Int))⟩,
        some (PErr.invalidFrameLen 8388609)) :=
  ⟨C6_bad_frame_length_halts.2 inflNone clk0 exampleWriter false true (-1)
      [0] trueEnv 0 1 (by decide) (by decide),
   C6_bad_frame_length_halts.2 inflNone clk0 exampleWriter false true (-1)
      [129, 128, 128, 4] trueEnv 8388609 4 (by decide) (by decide)⟩

/-- C7: the compression state never transitions back to disabled (so it
is enabled at most once per session), and a frame whose payload is
exactly one VarInt (here encoding 256) flips it to enabled when the
heuristic is active, but not when the caller disabled heuristic
detection. -/
theorem C7_compression_monotone_and_heuristic :
    (∀ (inflate : List Nat → Option (List Nat)) (clock : Nat → Nat)
        (anc gc : Bool) (fuel : Nat) (input : List Nat) (st : PState)
        (env : List Bool) (k : Nat), st.compressionEnabled = true →
      ((parseLoop inflate clock anc gc fuel input st env k).1).compressionEnabled
        = true) ∧
    ((parseAndRecord inflNone clk0 exampleWriter false true (-1)
        [3, 3, 128, 2] trueEnv).1).compressionEnabled = true ∧
    ((parseAndRecord inflNone clk0 exampleWriter false false (-1)
        [3, 3, 128, 2] trueEnv).1).compressionEnabled = false := by
  refine ⟨?_, by decide, by decide⟩
  intro inflate clock anc gc fuel input st env k h
  exact parseLoop_compression_mono inflate clock anc gc fuel input st env k h

/-- Witness for C7's monotonicity conjunct at a concrete enabled state. -/
theorem C7_compression_witness :
    ((parseLoop inflNone clk0 false true 1 [] ⟨exampleWriter, true⟩
        trueEnv 0).1).compressionEnabled = true :=
  C7_compression_monotone_and_heuristic.1 inflNone clk0 false true 1 []
    ⟨exampleWriter, true⟩ trueEnv 0 rfl

/-- C8: with compression enabled, a frame whose compressed block cannot
be inflated (`inflate` fails) does not abort the session and surfaces no
error: the raw frame bytes are used as the literal content, a message is
extracted from them (its id is the frame's leading VarInt, its payload
the remaining raw bytes), and — the write succeeding — the loop
continues with the next frame. -/
theorem C8_decompression_failure_falls_back
    (inflate : List Nat → Option (List Nat)) (clock : Nat → Nat) (gc : Bool)
    (fuel : Nat) (input : List Nat) (st : PState) (env : List Bool)
    (k l n us m : Nat) (w1 : Writer) (env1 : List Bool)
    (hcomp : st.compressionEnabled = true)
    (hread : readVarInt input = some (l, n))
    (hbad : ¬ (l = 0 ∨ maxFrame < l))
    (hshort : ¬ ((input.drop n).length < l))
    (hus : readVarInt ((input.drop n).take l) = some (us, m))
    (hpos : 0 < us)
    (hinf : inflate (((input.drop n).take l).drop m) = none)
    (hwp : writePacket st.w (clock k) (toInt32 (us % 2 ^ 32))
      (((input.drop n).take l).drop m) env = (w1, env1, none)) :
    parseLoop inflate clock false gc (fuel + 1) input st env k =
      parseLoop inflate clock false gc fuel ((input.drop n).drop l)
        ⟨w1, true⟩ env1 (k + 1) := by
  rw [parseLoop, hread]
  dsimp only
  rw [if_neg hbad, if_neg hshort, hcomp]
  simp only [Bool.not_false, Bool.true_and, Bool.not_true, Bool.and_false,
    Bool.false_and, ite_self, if_true]
  rw [hus]
  dsimp only
  rw [if_pos hpos, hinf]
  dsimp only
  rw [hus]
  dsimp only
  rw [hwp]

/-- Witness for C8: frame `[01 09 09]` (size field 1, bogus compressed
block `09 09`), inflation failing, records the fallback message and
continues. -/
theorem C8_decompression_failure_witness :
    parseLoop inflNone clk0 false true 4 [3, 1, 9, 9]
        ⟨exampleWriter, true⟩ trueEnv 0 =
      parseLoop inflNone clk0 false true 3 (([3, 1, 9, 9].drop 1).drop 3)
        ⟨c8Writer, true⟩ trueEnv 1 :=
  C8_decompression_failure_falls_back inflNone clk0 true 3 [3, 1, 9, 9]
    ⟨exampleWriter, true⟩ trueEnv 0 3 1 1 1 c8Writer trueEnv rfl
    (by decide) (by decide) (by decide) (by decide) (by decide) rfl rfl

/-- C9: once a first `Close` has returned success, a second `Close` is a
no-op returning success: the writer (and hence the on-disk result) is
exactly the one the first call produced. -/
theorem C9_close_idempotent (w : Writer) (env : List Bool) (w1 : Writer)
    (env1 : List Bool) (h : closeW w env = (w1, env1, none))
    (env2 : List Bool) : closeW w1 env2 = (w1, env2, none) := by
  have hcl : w1.closed = true := by
    have hx := (closeW_master w env).2.2.1
    rw [h] at hx
    exact hx rfl
  rw [closeW, if_pos hcl]

/-- Witness for C9: closing the example writer twice. -/
theorem C9_close_idempotent_witness :
    closeW (closeW exampleWriter trueEnv).1 trueEnv =
      ((closeW exampleWriter trueEnv).1, trueEnv, none) :=
  C9_close_idempotent exampleWriter trueEnv (closeW exampleWriter trueEnv).1
    (closeW exampleWriter trueEnv).2.1 rfl trueEnv

/-- C10: a failed `Close` leaves the writer not marked closed; a
subsequent `WritePacket` does not take the writer-closed error branch
but attempts the append to the superseded recording entry (reporting the
write-after-close error when the entry is gone); a subsequent `Close`
re-runs finalization — beginning again with creating `metaData.json` —
instead of no-opping; and the closed flag is set only together with a
successfully closed archive. -/
theorem C10_close_error_not_latched :
    (∀ (w : Writer) (env : List Bool) (e : WErr),
      (closeW w env).2.2 = some e → (closeW w env).1.closed = false) ∧
    (∀ (w : Writer) (ts : Nat) (pid : Int) (pl : List Nat) (env : List Bool),
      w.closed = false →
        (writePacket w ts pid pl env).2.2 ≠ some WErr.writerClosed) ∧
    (∀ (w : Writer) (ts : Nat) (pid : Int) (pl : List Nat) (env : List Bool),
      w.closed = false → w.zw.cur = none →
        (writePacket w ts pid pl env).2.2 =
          some (WErr.entryClosed "recording.tmcpr")) ∧
    (∀ (w : Writer) (env : List Bool), w.closed = false →
      ∃ δ, (closeW w env).1.zw.ops =
        w.zw.ops ++ ZOp.create "metaData.json" :: δ) ∧
    (∀ (w : Writer) (env : List Bool), (closeW w env).1.closed = true →
      w.closed = true ∨
        ((closeW w env).2.2 = none ∧ (closeW w env).1.zw.closedZ = true)) := by
  refine ⟨?_, ?_, ?_, ?_, ?_⟩
  · intro w env e h
    exact (closeW_master w env).2.1 e h
  · intro w ts pid pl env hc h
    rcases writePacket_err_shape w ts pid pl env _ hc h with h' | h' <;>
      exact WErr.noConfusion h'
  · intro w ts pid pl env hc hcur
    exact writePacket_curNone w ts pid pl env hc hcur
  · intro w env hc
    obtain ⟨δ, hops, _, hd⟩ := (closeW_master w env).1
    obtain ⟨δ', rfl⟩ := hd hc
    exact ⟨δ', hops⟩
  · intro w env h
    exact (closeW_master w env).2.2.2 h

/-- Witness for C10: `Close` failing at its first step (creating
`metaData.json`) leaves `closed` unset; the next `WritePacket` hits the
write-after-close error, not the writer-closed branch; and the retried
`Close` re-runs finalization starting from the `metaData.json` step. -/
theorem C10_close_error_witness :
    (closeW exampleWriter [false]).1.closed = false ∧
    (writePacket failedCloseWriter 0 1 [] trueEnv).2.2 =
      some (WErr.entryClosed "recording.tmcpr") ∧
    (∃ δ, (closeW failedCloseWriter trueEnv).1.zw.ops =
      failedCloseWriter.zw.ops ++ ZOp.create "metaData.json" :: δ) :=
  ⟨C10_close_error_not_latched.1 exampleWriter [false]
      (WErr.createFail "metaData.json") (by decide),
   C10_close_error_not_latched.2.2.1 failedCloseWriter 0 1 [] trueEnv
      (by decide) (by decide),
   C10_close_error_not_latched.2.2.2.1 failedCloseWriter trueEnv (by decide)⟩

end MCReplay
